import Mathlib

/-!
# Verification of the rustlab-2024-shell command-chain interpreter

Shallow embedding of the repository's parser and executor iterations:

* `examples/block2.rs` — tokenizer, chain parser (`&&`, `||`), `Chain::run`
  with short-circuit semantics over external commands;
* `examples/block4.rs` — same parser, plus builtins `cd` / `exit` / `history`
  inside `Cmd::run`, and a main loop that appends every line to a history log;
* `src/main.rs` — the simple iteration with `Command::cd` and a bare `exit`;
* the pipe-aware iteration (`examples/block5.rs`, exercised by
  `tests/all/block5.rs` but not present in the given sources) is modelled
  from the spec where needed.

Machine strings are Lean `String`s; process exit statuses are `Int` with
`0` meaning success (Rust's `ExitStatus::success()`); external processes and
the filesystem are oracles passed explicitly.
-/

/-- `Cmd { binary, args }` from block2/block4: one invocable program. -/
structure Cmd where
  binary : String
  args : List String
deriving DecidableEq, Repr

/-- `Element` from block2/block4: `And` (`&&`), `Or` (`||`), or a command. -/
inductive Element where
  | and : Element
  | or : Element
  | cmd : Cmd → Element
deriving DecidableEq, Repr

/-- `Element::parse_operator` from block2/block4: only `&&` and `||` are
recognized; any other token (including `|`) is not an operator there. -/
def parseOperator (token : String) : Option Element :=
  if token = "&&" then some Element.and
  else if token = "||" then some Element.or
  else none

/-- `Element::is_operator` from block2/block4. -/
def isOperator (token : String) : Bool :=
  (parseOperator token).isSome

/-- The parser's cursor state: `none` when no command is being accumulated,
`some (binary, revArgs)` while `parse_cmd` is consuming argument tokens
(arguments kept reversed for structural recursion). -/
def ParseState : Type := Option (String × List String)

/-- The single cursor pass of `Parser::parse` / `parse_next` / `parse_cmd`
from block2/block4: an operator token ends the pending command (if any) and
emits the operator element; any other token starts or extends a command. -/
def parseElemsAux : List String → ParseState → List Element
  | [], none => []
  | [], some (b, revArgs) => [Element.cmd ⟨b, revArgs.reverse⟩]
  | t :: ts, none =>
    match parseOperator t with
    | some op => op :: parseElemsAux ts none
    | none => parseElemsAux ts (some (t, []))
  | t :: ts, some (b, revArgs) =>
    match parseOperator t with
    | some op => Element.cmd ⟨b, revArgs.reverse⟩ :: op :: parseElemsAux ts none
    | none => parseElemsAux ts (some (b, t :: revArgs))

/-- The element sequence `Parser::parse` accumulates from a token list. -/
def parseElems (tokens : List String) : List Element :=
  parseElemsAux tokens none

/-- `Chain`: the parsed element sequence of one `;`-separated segment. -/
structure Chain where
  elements : List Element
deriving DecidableEq, Repr

/-- `Parser::parse` from block2/block4: `Some(Chain)` iff at least one
element was produced. -/
def parse (tokens : List String) : Option Chain :=
  let es := parseElems tokens
  if es.isEmpty then none else some ⟨es⟩

/-- Helper for `str::split_whitespace`: accumulates the current word
(reversed); a whitespace character flushes it. -/
def wordsAux : List Char → List Char → List String
  | [], acc => if acc.isEmpty then [] else [String.mk acc.reverse]
  | c :: cs, acc =>
    if c.isWhitespace then
      if acc.isEmpty then wordsAux cs [] else String.mk acc.reverse :: wordsAux cs []
    else wordsAux cs (c :: acc)

/-- Rust `str::split_whitespace` as used by `Parser::new`: whitespace-delimited
words, runs of whitespace collapsed, no empty words. -/
def splitWhitespace (s : String) : List String :=
  wordsAux s.toList []

/-- Rust `str::split(';')` as used by `chains_from_line`: splits at every
`;`, keeping empty segments (`""` yields one empty segment). -/
def splitSemis : List Char → List (List Char)
  | [] => [[]]
  | c :: cs =>
    if c = ';' then [] :: splitSemis cs
    else
      match splitSemis cs with
      | [] => [[c]]
      | s :: ss => (c :: s) :: ss

/-- `chains_from_line` from block2/block4: split the line on `;`, parse each
segment, and keep only segments that produced a chain (`filter_map`). -/
def chainsFromLine (line : String) : List Chain :=
  (splitSemis line.toList).filterMap fun seg => parse (wordsAux seg [])

/-- `std::process::Output` as the executor observes it: the child's exit
status, and the bytes the child wrote to the (inherited) stdout/stderr.
`status = 0` is Rust's `ExitStatus::success()`. -/
structure Output where
  status : Int
  stdout : String
  stderr : String
deriving DecidableEq, Repr

/-- An oracle for `Cmd::run` of block2: what spawning a given external
command does — `none` when `spawn` fails (block2 prints the error and
yields `None`), `some o` for the status and bytes of the finished child. -/
def ExecEnv : Type := Cmd → Option Output

/-- The observable result of block2's `Chain::run` loop: the commands that
were actually executed (in order), the final carried `prev_output` when the
loop ended normally, and the message of the `expect` panic if one fired. -/
structure RunResult where
  executed : List Cmd
  final : Option Output
  panicMsg : Option String
deriving DecidableEq, Repr

/-- block2 `Chain::run`: walk the elements carrying `prev_output`.
A command sets `prev_output` to its spawn result; `And`/`Or` `expect` a
carried outcome (panicking otherwise), short-circuit on its status, and
clear it. `break` ends the loop with no carried outcome. -/
def runElems (env : ExecEnv) : List Element → Option Output → RunResult
  | [], prev => ⟨[], prev, none⟩
  | Element.cmd c :: rest, _ =>
    let r := runElems env rest (env c)
    ⟨c :: r.executed, r.final, r.panicMsg⟩
  | Element.and :: rest, prev =>
    match prev with
    | none => ⟨[], none, some "no command before &&"⟩
    | some o => if o.status = 0 then runElems env rest none else ⟨[], none, none⟩
  | Element.or :: rest, prev =>
    match prev with
    | none => ⟨[], none, some "no command before ||"⟩
    | some o => if o.status = 0 then ⟨[], none, none⟩ else runElems env rest none

/-- block2 `Chain::run` on a whole chain (initial `prev_output = None`). -/
def chainRun (env : ExecEnv) (c : Chain) : RunResult :=
  runElems env c.elements none

/-- What a command contributes to the shell's terminal stdout: the child
writes directly to the inherited stdout; a failed spawn prints nothing
there. -/
def cmdStdout (env : ExecEnv) (c : Cmd) : String :=
  match env c with
  | some o => o.stdout
  | none => ""

/-- The stdout the terminal sees from one chain execution: the
concatenation, in order, of what each executed command wrote. -/
def chainStdout (env : ExecEnv) (c : Chain) : String :=
  String.join ((chainRun env c).executed.map (cmdStdout env))

/-- Oracle for the OS calls block4's `Cmd::run` makes: `chdirErr p` is
`none` when `std::env::set_current_dir(p)` succeeds and `some msg` with the
error's display text otherwise; `historyReadErr` likewise for
`fs::read_to_string` of the history file; `external c` is the result of
spawning and waiting on the external command (`Err` text on spawn failure). -/
structure B4Env where
  chdirErr : String → Option String
  historyReadErr : Option String
  external : Cmd → Except String Output

/-- What one block4 `Cmd::run` call did besides its return value: bytes it
itself wrote to the shell's stdout/stderr (`write_all` of the captured
output, or `eprintln!("Error: {}", e)`), and the directory change it
applied (none when `cd` failed or was not invoked). -/
structure B4Effect where
  printedOut : String
  printedErr : String
  chdirTo : Option String
deriving DecidableEq, Repr

/-- The result of block4 `Cmd::run`: either `process::exit(code)` was
reached (the call never returns), or the function returned `value`
(an `Option<Output>`) after the effects in `eff`. -/
inductive B4Out where
  | exit : Int → B4Out
  | ret : B4Effect → Option Output → B4Out
deriving DecidableEq, Repr

/-- The tail of block4 `Cmd::run`: the `match result` that prints a present
output's stdout/stderr, prints `Error: {e}` on `Err`, and then returns
`None`. `chdir` records the directory change already applied by the `cd`
branch. -/
def b4Tail (result : Except String (Option Output)) (chdir : Option String) : B4Out :=
  match result with
  | Except.ok (some o) => B4Out.ret ⟨o.stdout, o.stderr, chdir⟩ none
  | Except.ok none => B4Out.ret ⟨"", "", chdir⟩ none
  | Except.error e => B4Out.ret ⟨"", "Error: " ++ e ++ "\n", chdir⟩ none

/-- Accumulate the value of a decimal digit run; any non-digit character
makes the whole parse fail. -/
def digitsValAux : List Char → Nat → Option Nat
  | [], acc => some acc
  | c :: cs, acc =>
    if c.isDigit then digitsValAux cs (acc * 10 + (c.toNat - '0'.toNat))
    else none

/-- The value of a non-empty all-digit character run. -/
def digitsVal : List Char → Option Nat
  | [] => none
  | ds => digitsValAux ds 0

/-- Model of Rust `str::parse::<i32>`: an optional sign followed by a
non-empty digit run (overflow rejection is not modelled; the repository
only parses small statuses). -/
def parseIntRust (s : String) : Option Int :=
  match s.toList with
  | '+' :: ds => (digitsVal ds).map Int.ofNat
  | '-' :: ds => (digitsVal ds).map fun n => -(Int.ofNat n)
  | ds => (digitsVal ds).map Int.ofNat

/-- `exit`'s status argument in block4: `args.get(0)` then
`status.parse().unwrap_or(0)`, defaulting to `0` when absent or
unparsable. -/
def exitStatusOf (args : List String) : Int :=
  match args.head? with
  | some s => (parseIntRust s).getD 0
  | none => 0

/-- block4 `Cmd::run` with the builtins: `cd` (first argument passed to
`set_current_dir`, `?` on a missing argument returns `None` silently,
extra arguments ignored), `exit` (terminates the process), `history`
(returns the log contents as a captured `Output`), and external spawning
otherwise. `hist` is the current contents of the history file. -/
def b4CmdRun (env : B4Env) (hist : String) (c : Cmd) : B4Out :=
  if c.binary = "cd" then
    match c.args.head? with
    | none => B4Out.ret ⟨"", "", none⟩ none
    | some d =>
      match env.chdirErr d with
      | none => b4Tail (Except.ok none) (some d)
      | some e => b4Tail (Except.error e) none
  else if c.binary = "exit" then
    B4Out.exit (exitStatusOf c.args)
  else if c.binary = "history" then
    match env.historyReadErr with
    | none => b4Tail (Except.ok (some ⟨0, hist, ""⟩)) none
    | some e => b4Tail (Except.error e) none
  else
    match env.external c with
    | Except.ok o => b4Tail (Except.ok (some o)) none
    | Except.error e => b4Tail (Except.error e) none

/-- How block4 `Chain::run` ends: an `exit` builtin terminated the whole
process with a code, an `expect` panicked, or the loop finished. -/
inductive B4ChainOut where
  | exit : Int → B4ChainOut
  | panicked : String → B4ChainOut
  | finished : B4ChainOut
deriving DecidableEq, Repr

/-- block4 `Chain::run`: the same carried-`prev_output` walk as block2, but
`prev_output = cmd.run()` takes whatever block4's `Cmd::run` returns, and a
`process::exit` inside a command ends everything. -/
def b4RunElems (env : B4Env) (hist : String) :
    List Element → Option Output → B4ChainOut
  | [], _ => B4ChainOut.finished
  | Element.cmd c :: rest, _ =>
    match b4CmdRun env hist c with
    | B4Out.exit s => B4ChainOut.exit s
    | B4Out.ret _ v => b4RunElems env hist rest v
  | Element.and :: rest, prev =>
    match prev with
    | none => B4ChainOut.panicked "no command before &&"
    | some o => if o.status = 0 then b4RunElems env hist rest none else B4ChainOut.finished
  | Element.or :: rest, prev =>
    match prev with
    | none => B4ChainOut.panicked "no command before ||"
    | some o => if o.status = 0 then B4ChainOut.finished else b4RunElems env hist rest none

/-- The `for chain in chains` loop of block4 `main`: a `process::exit` or a
panic in one chain ends the whole run. -/
def b4RunChains (env : B4Env) (hist : String) : List Chain → B4ChainOut
  | [] => B4ChainOut.finished
  | c :: rest =>
    match b4RunElems env hist c.elements none with
    | B4ChainOut.finished => b4RunChains env hist rest
    | out => out

/-- `History::new` from block4: the log's path is the `HISTORY_PATH`
environment value when set, else the constant `.history`. -/
def historyPath (envVar : Option String) : String :=
  envVar.getD ".history"

/-- Rust `str::trim`: drop leading and trailing whitespace. -/
def trimChars (cs : List Char) : List Char :=
  ((cs.dropWhile Char.isWhitespace).reverse.dropWhile Char.isWhitespace).reverse

/-- One iteration of block4 `main` on one input line: `history.add(line.trim())`
appends the trimmed line plus a newline to the log (before any chain
splitting), then the line is split into chains and each is run. Returns
the new log contents and how the chain loop ended. -/
def b4MainStep (env : B4Env) (line : String) (hist : String) : String × B4ChainOut :=
  let hist2 := hist ++ String.mk (trimChars line.toList) ++ "\n"
  (hist2, b4RunChains env hist2 (chainsFromLine line))

/-- `Command` from src/main.rs: `binary` is the first whitespace word of
the trimmed segment (absent for a blank segment). -/
structure MCommand where
  binary : Option String
  args : List String
deriving DecidableEq, Repr

/-- `From<String> for Command` in src/main.rs: `value.trim()` then
`split_whitespace`, first word as binary, rest as args. -/
def mcommandFromString (s : String) : MCommand :=
  match wordsAux (trimChars s.toList) [] with
  | [] => ⟨none, []⟩
  | b :: rest => ⟨some b, rest⟩

/-- Oracle for src/main.rs: which (joined) paths `set_current_dir` accepts,
and the exit status of running an external binary (`none` makes the
`.status().expect(..)` call panic). -/
structure MEnv where
  enterable : String → Bool
  externalStatus : String → List String → Option Int

/-- Rust `PathBuf::join` as src/main.rs's `cd` uses it: an absolute
argument replaces the base, a relative one is appended. -/
def pathJoin (base p : String) : String :=
  if p.startsWith "/" then p else base ++ "/" ++ p

/-- `Command::cd` from src/main.rs: exactly one argument is required
(otherwise `Expected exactly one argument` goes to stderr and nothing
changes); the argument is joined onto the current directory and
`set_current_dir` errors are printed, leaving the directory unchanged.
Returns the new working directory and the reported error, if any. -/
def mainCd (args : List String) (cwd : String) (env : MEnv) : String × Option String :=
  match args with
  | [p] =>
    let dir := pathJoin cwd p
    if env.enterable dir then (dir, none)
    else (cwd, some ("cd: cannot enter " ++ dir))
  | _ => (cwd, some "Expected exactly one argument")

/-- The result of src/main.rs `Command::run`: `exit` via `process::exit(0)`,
a panic from `.expect("Error while running process")`, a completed run with
the resulting working directory and reported error, or nothing (blank
segment). -/
inductive MOut where
  | exit : Int → MOut
  | panicked : String → MOut
  | ran : String → Option String → MOut
  | nothing : MOut
deriving DecidableEq, Repr

/-- `Command::run` from src/main.rs: dispatch on the binary name — `cd`
calls `Command::cd`; `exit` calls `process::exit(0)` ignoring all
arguments; anything else spawns externally and panics if spawning fails. -/
def mainRun (c : MCommand) (cwd : String) (env : MEnv) : MOut :=
  match c.binary with
  | none => MOut.nothing
  | some b =>
    if b = "cd" then
      let r := mainCd c.args cwd env
      MOut.ran r.1 r.2
    else if b = "exit" then
      MOut.exit 0
    else
      match env.externalStatus b c.args with
      | some _ => MOut.ran cwd none
      | none => MOut.panicked "Error while running process"

/-- Oracle for the external `echo` binary as the repository's tests use it:
prints its arguments joined by spaces plus a newline and succeeds; any
other binary fails to produce output here. -/
def echoEnv : ExecEnv := fun c =>
  if c.binary = "echo" then
    some ⟨0, String.intercalate " " c.args ++ "\n", ""⟩
  else none

/-- Modelled from the spec: the pipe-aware `Element` of the block5
iteration (`examples/block5.rs`, exercised by `tests/all/block5.rs` but not
among the given sources) — §3: tagged union over And, Or, Pipe, Command. -/
inductive Element5 where
  | and : Element5
  | or : Element5
  | pipe : Element5
  | cmd : Cmd → Element5
deriving DecidableEq, Repr

/-- Modelled from the spec: block5's `parse_operator` — §4.2: the known
operator literals are `&&`, `||` and `|`. -/
def parseOperator5 (token : String) : Option Element5 :=
  if token = "&&" then some Element5.and
  else if token = "||" then some Element5.or
  else if token = "|" then some Element5.pipe
  else none

/-- Modelled from the spec: block5's single cursor pass (§4.2) — identical
to the block2/block4 pass but over the three operator literals: an
operator token ends the pending command and is emitted; any other token
starts or extends a command, arguments consumed greedily until the next
operator or the end of the tokens. -/
def parseElemsAux5 : List String → ParseState → List Element5
  | [], none => []
  | [], some (b, revArgs) => [Element5.cmd ⟨b, revArgs.reverse⟩]
  | t :: ts, none =>
    match parseOperator5 t with
    | some op => op :: parseElemsAux5 ts none
    | none => parseElemsAux5 ts (some (t, []))
  | t :: ts, some (b, revArgs) =>
    match parseOperator5 t with
    | some op => Element5.cmd ⟨b, revArgs.reverse⟩ :: op :: parseElemsAux5 ts none
    | none => parseElemsAux5 ts (some (b, t :: revArgs))

/-- Modelled from the spec: the element sequence block5's parser produces. -/
def parseElems5 (tokens : List String) : List Element5 :=
  parseElemsAux5 tokens none

/-- A pipeline-stage oracle for the spec-modelled block5 executor:
`transform c` maps the bytes a stage reads on stdin to the bytes it writes
to stdout, and `status c` is its exit status. -/
structure PipeEnv where
  transform : Cmd → String → String
  status : Cmd → Int

/-- An event of the pipeline executor's observable schedule: spawning a
stage, or waiting on a stage. -/
inductive PEvent where
  | spawn : Cmd → PEvent
  | wait : Cmd → PEvent
deriving DecidableEq, Repr

/-- Modelled from the spec (§4.4 Pipe, §5): the spawn phase of one
pipeline — each stage is spawned in order, its stdin connected to the
previous stage's stdout (the OS pipe carries `input` transformed so far);
no `wait` happens in this phase. Returns the spawn events and the bytes
the last stage writes. -/
def spawnPhase (env : PipeEnv) : List Cmd → String → List PEvent × String
  | [], input => ([], input)
  | c :: cs, input =>
    let r := spawnPhase env cs (env.transform c input)
    (PEvent.spawn c :: r.1, r.2)

/-- Modelled from the spec (§4.4, §5): run one pipeline of N commands —
spawn all stages, then wait on all of them; the carried outcome for
short-circuiting is the last stage's exit status. Returns the event
schedule, the pipeline's final stdout, and that outcome. -/
def runPipeline (env : PipeEnv) (cmds : List Cmd) (input : String) :
    List PEvent × String × Option Int :=
  let r := spawnPhase env cmds input
  (r.1 ++ cmds.map PEvent.wait, r.2, (cmds.getLast?).map env.status)

/-- Stage oracle used for the concrete pipeline test: `echo` writes its
arguments joined by spaces plus a newline (ignoring stdin), `wc -c`
writes the byte count of its stdin plus a newline (the test input is
ASCII, so characters and bytes agree). Both succeed. -/
def pipeEnvDemo : PipeEnv where
  transform c s :=
    if c.binary = "echo" then String.intercalate " " c.args ++ "\n"
    else if c.binary = "wc" then toString s.length ++ "\n"
    else ""
  status _ := 0

/-- Modelled from the spec: block5's `is_operator` over the three literals. -/
def isOperator5 (token : String) : Bool :=
  (parseOperator5 token).isSome

/-- The tokens an element came from: the operator literal for an operator,
the binary followed by the args for a command. -/
def flattenElem : Element → List String
  | Element.and => ["&&"]
  | Element.or => ["||"]
  | Element.cmd c => c.binary :: c.args

/-- Flattening a whole element sequence back into tokens. -/
def flattenElems : List Element → List String
  | [] => []
  | e :: es => flattenElem e ++ flattenElems es

/-- The tokens already consumed into the parser's pending-command state. -/
def stTokens : ParseState → List String
  | none => []
  | some (b, revArgs) => b :: revArgs.reverse

theorem flattenElem_of_parseOperator {t : String} {op : Element}
    (h : parseOperator t = some op) : flattenElem op = [t] := by
  unfold parseOperator at h
  split_ifs at h with h1 h2
  · cases h
    simp [flattenElem, h1]
  · cases h
    simp [flattenElem, h2]

theorem parseOperator_ne_cmd {t : String} {op : Element} {c : Cmd}
    (h : parseOperator t = some op) : op ≠ Element.cmd c := by
  unfold parseOperator at h
  split_ifs at h with h1 h2
  · cases h
    simp
  · cases h
    simp

theorem flatten_parseElemsAux (ts : List String) :
    ∀ st, flattenElems (parseElemsAux ts st) = stTokens st ++ ts := by
  induction ts with
  | nil =>
    intro st
    match st with
    | none => rfl
    | some (b, revArgs) => simp [parseElemsAux, flattenElems, flattenElem, stTokens]
  | cons t ts ih =>
    intro st
    match st with
    | none =>
      simp only [parseElemsAux]
      cases hop : parseOperator t with
      | some op =>
        simp only [flattenElems]
        rw [flattenElem_of_parseOperator hop, ih]
        simp [stTokens]
      | none =>
        rw [ih]
        simp [stTokens]
    | some (b, revArgs) =>
      simp only [parseElemsAux]
      cases hop : parseOperator t with
      | some op =>
        simp only [flattenElems]
        rw [flattenElem_of_parseOperator hop, ih]
        simp [stTokens, flattenElem]
      | none =>
        rw [ih]
        simp [stTokens]

theorem flatten_parseElems (ts : List String) :
    flattenElems (parseElems ts) = ts :=
  flatten_parseElemsAux ts none

/-- The well-formedness carried by the parser's pending-command state: the
stored binary and arguments were tokens the operator check rejected. -/
def stOk : ParseState → Prop
  | none => True
  | some (b, revArgs) =>
    isOperator b = false ∧ ∀ a ∈ revArgs, isOperator a = false

theorem cmd_ok_parseElemsAux (ts : List String) :
    ∀ st, stOk st → ∀ c, Element.cmd c ∈ parseElemsAux ts st →
      isOperator c.binary = false ∧ ∀ a ∈ c.args, isOperator a = false := by
  induction ts with
  | nil =>
    intro st hst c hc
    match st with
    | none => simp [parseElemsAux] at hc
    | some (b, revArgs) =>
      simp [parseElemsAux] at hc
      obtain ⟨hb, ha⟩ := hst
      subst hc
      refine ⟨hb, ?_⟩
      intro a ha2
      exact ha a (List.mem_reverse.mp ha2)
  | cons t ts ih =>
    intro st hst c hc
    match st with
    | none =>
      simp only [parseElemsAux] at hc
      cases hop : parseOperator t with
      | some op =>
        rw [hop] at hc
        rcases List.mem_cons.mp hc with h | h
        · exact absurd h.symm (parseOperator_ne_cmd hop)
        · exact ih none trivial c h
      | none =>
        rw [hop] at hc
        refine ih (some (t, [])) ?_ c hc
        constructor
        · simp [isOperator, hop]
        · intro a ha
          simp at ha
    | some (b, revArgs) =>
      simp only [parseElemsAux] at hc
      cases hop : parseOperator t with
      | some op =>
        rw [hop] at hc
        obtain ⟨hb, ha⟩ := hst
        rcases List.mem_cons.mp hc with h | h
        · cases h
          refine ⟨hb, ?_⟩
          intro a ha2
          exact ha a (List.mem_reverse.mp ha2)
        · rcases List.mem_cons.mp h with h2 | h2
          · exact absurd h2.symm (parseOperator_ne_cmd hop)
          · exact ih none trivial c h2
      | none =>
        rw [hop] at hc
        obtain ⟨hb, ha⟩ := hst
        refine ih (some (b, t :: revArgs)) ⟨hb, ?_⟩ c hc
        intro a ha2
        rcases List.mem_cons.mp ha2 with h | h
        · subst h
          simp [isOperator, hop]
        · exact ha a h

theorem parseOperator5_ne_cmd {t : String} {op : Element5} {c : Cmd}
    (h : parseOperator5 t = some op) : op ≠ Element5.cmd c := by
  unfold parseOperator5 at h
  split_ifs at h with h1 h2 h3
  · cases h
    simp
  · cases h
    simp
  · cases h
    simp

/-- Well-formedness of the spec-modelled parser's pending-command state. -/
def stOk5 : ParseState → Prop
  | none => True
  | some (b, revArgs) =>
    isOperator5 b = false ∧ ∀ a ∈ revArgs, isOperator5 a = false

theorem cmd_ok_parseElemsAux5 (ts : List String) :
    ∀ st, stOk5 st → ∀ c, Element5.cmd c ∈ parseElemsAux5 ts st →
      isOperator5 c.binary = false ∧ ∀ a ∈ c.args, isOperator5 a = false := by
  induction ts with
  | nil =>
    intro st hst c hc
    match st with
    | none => simp [parseElemsAux5] at hc
    | some (b, revArgs) =>
      simp [parseElemsAux5] at hc
      obtain ⟨hb, ha⟩ := hst
      subst hc
      refine ⟨hb, ?_⟩
      intro a ha2
      exact ha a (List.mem_reverse.mp ha2)
  | cons t ts ih =>
    intro st hst c hc
    match st with
    | none =>
      simp only [parseElemsAux5] at hc
      cases hop : parseOperator5 t with
      | some op =>
        rw [hop] at hc
        rcases List.mem_cons.mp hc with h | h
        · exact absurd h.symm (parseOperator5_ne_cmd hop)
        · exact ih none trivial c h
      | none =>
        rw [hop] at hc
        refine ih (some (t, [])) ?_ c hc
        constructor
        · simp [isOperator5, hop]
        · intro a ha
          simp at ha
    | some (b, revArgs) =>
      simp only [parseElemsAux5] at hc
      cases hop : parseOperator5 t with
      | some op =>
        rw [hop] at hc
        obtain ⟨hb, ha⟩ := hst
        rcases List.mem_cons.mp hc with h | h
        · cases h
          refine ⟨hb, ?_⟩
          intro a ha2
          exact ha a (List.mem_reverse.mp ha2)
        · rcases List.mem_cons.mp h with h2 | h2
          · exact absurd h2.symm (parseOperator5_ne_cmd hop)
          · exact ih none trivial c h2
      | none =>
        rw [hop] at hc
        obtain ⟨hb, ha⟩ := hst
        refine ih (some (b, t :: revArgs)) ⟨hb, ?_⟩ c hc
        intro a ha2
        rcases List.mem_cons.mp ha2 with h | h
        · subst h
          simp [isOperator5, hop]
        · exact ha a h

theorem parse_eq_some {ts : List String} {c : Chain}
    (h : parse ts = some c) : c = ⟨parseElems ts⟩ ∧ parseElems ts ≠ [] := by
  unfold parse at h
  simp only at h
  split_ifs at h with h1
  · cases h
    exact ⟨rfl, by simpa using h1⟩

theorem wordsAux_of_whitespace (seg : List Char)
    (h : ∀ ch ∈ seg, ch.isWhitespace = true) : wordsAux seg [] = [] := by
  induction seg with
  | nil => rfl
  | cons c cs ih =>
    have hc : c.isWhitespace = true := h c (List.mem_cons_self c cs)
    simp only [wordsAux, hc, if_true, List.isEmpty_nil]
    exact ih fun ch hch => h ch (List.mem_cons_of_mem c hch)

theorem spawnPhase_spec (env : PipeEnv) (cmds : List Cmd) :
    ∀ input, spawnPhase env cmds input =
      (cmds.map PEvent.spawn, cmds.foldl (fun s c => env.transform c s) input) := by
  induction cmds with
  | nil => intro input; rfl
  | cons c cs ih =>
    intro input
    simp [spawnPhase, ih, List.foldl_cons]

example : parseElems ["ls"] = [Element.cmd ⟨"ls", []⟩] := by decide
example : chainsFromLine "ls -l" = [⟨[Element.cmd ⟨"ls", ["-l"]⟩]⟩] := by decide
example : chainsFromLine "ls; echo hello" =
    [⟨[Element.cmd ⟨"ls", []⟩]⟩, ⟨[Element.cmd ⟨"echo", ["hello"]⟩]⟩] := by decide
example : chainsFromLine "echo hello && echo world" =
    [⟨[Element.cmd ⟨"echo", ["hello"]⟩, Element.and,
       Element.cmd ⟨"echo", ["world"]⟩]⟩] := by decide
example : chainsFromLine ";;" = [] := by decide
example : chainsFromLine "a | b" = [⟨[Element.cmd ⟨"a", ["|", "b"]⟩]⟩] := by decide
example : (chainsFromLine "echo hello && echo world").map (chainStdout echoEnv) =
    ["hello\nworld\n"] := by decide
example : (chainsFromLine "echo hello || echo world").map (chainStdout echoEnv) =
    ["hello\n"] := by decide
example : chainsFromLine "&& echo hello" = [⟨[Element.and, Element.cmd ⟨"echo", ["hello"]⟩]⟩] := by
  decide
example : (chainRun echoEnv ⟨[Element.and, Element.cmd ⟨"echo", ["hello"]⟩]⟩).panicMsg =
    some "no command before &&" := by decide
example : runPipeline pipeEnvDemo [⟨"echo", ["hello"]⟩, ⟨"wc", ["-c"]⟩] "" =
    ([PEvent.spawn ⟨"echo", ["hello"]⟩, PEvent.spawn ⟨"wc", ["-c"]⟩,
      PEvent.wait ⟨"echo", ["hello"]⟩, PEvent.wait ⟨"wc", ["-c"]⟩],
     "6\n", some 0) := by decide
example : parseElems5 ["echo", "hello", "|", "wc", "-c"] =
    [Element5.cmd ⟨"echo", ["hello"]⟩, Element5.pipe, Element5.cmd ⟨"wc", ["-c"]⟩] := by decide

/-- A block4 oracle on which every `chdir` succeeds, the history file is
readable, and no external binary can be spawned. -/
def b4EnvOk : B4Env :=
  ⟨fun _ => none, none, fun _ => Except.error "spawn failed"⟩

/-- A block4 oracle on which every `chdir` fails, the history file is
readable, and every external binary runs successfully printing `out`. -/
def b4EnvExt : B4Env :=
  ⟨fun _ => some "chdir failed", none, fun _ => Except.ok ⟨0, "out\n", ""⟩⟩

/-- A src/main.rs oracle on which every path is enterable and every
external binary exits successfully. -/
def menvAll : MEnv :=
  ⟨fun _ => true, fun _ _ => some 0⟩

/-- Claim C1: the claim asks that a token sequence beginning or ending with
an operator, or with two adjacent operators, produce a structured
per-chain `ParseError`. The code has no such error: on the failing input
`&& echo hello` the block2/block4 parser happily builds the chain
`[And, Cmd echo hello]`, and `Chain::run` then reaches the
`expect("no command before &&")` panic, which aborts the whole process,
other chains of the line included. -/
theorem claim_C1 :
    chainsFromLine "&& echo hello" =
      [⟨[Element.and, Element.cmd ⟨"echo", ["hello"]⟩]⟩] ∧
    (chainRun echoEnv ⟨[Element.and, Element.cmd ⟨"echo", ["hello"]⟩]⟩).panicMsg =
      some "no command before &&" := by
  decide

/-- Claim C2: in the block2 executor, after an `And` the rest of the chain
runs iff the carried outcome's status is success, after an `Or` iff it is
failure, and the carried outcome is cleared in both the continue and the
abort case; concretely, `echo hello && echo world` prints
`hello\nworld\n` and `echo hello || echo world` prints `hello\n` only. -/
theorem claim_C2 :
    (∀ (env : ExecEnv) (rest : List Element) (o : Output),
      runElems env (Element.and :: rest) (some o) =
        if o.status = 0 then runElems env rest none else ⟨[], none, none⟩) ∧
    (∀ (env : ExecEnv) (rest : List Element) (o : Output),
      runElems env (Element.or :: rest) (some o) =
        if o.status = 0 then ⟨[], none, none⟩ else runElems env rest none) ∧
    (chainsFromLine "echo hello && echo world").map (chainStdout echoEnv) =
      ["hello\nworld\n"] ∧
    (chainsFromLine "echo hello || echo world").map (chainStdout echoEnv) =
      ["hello\n"] :=
  ⟨fun _ _ _ => rfl, fun _ _ _ => rfl, by decide, by decide⟩

/-- Claim C3: operator recognition has priority over treating a token as a
binary or argument. In the block2/block4 parser a token that is textually
`&&` or `||` never appears as a command's binary or argument; in the
spec-modelled pipe-aware parser the same holds for `&&`, `||` and `|`. -/
theorem claim_C3 :
    (parseOperator "&&" = some Element.and ∧ parseOperator "||" = some Element.or) ∧
    (∀ (ts : List String) (c : Cmd), Element.cmd c ∈ parseElems ts →
      isOperator c.binary = false ∧ ∀ a ∈ c.args, isOperator a = false) ∧
    (parseOperator5 "&&" = some Element5.and ∧ parseOperator5 "||" = some Element5.or ∧
      parseOperator5 "|" = some Element5.pipe) ∧
    (∀ (ts : List String) (c : Cmd), Element5.cmd c ∈ parseElems5 ts →
      isOperator5 c.binary = false ∧ ∀ a ∈ c.args, isOperator5 a = false) := by
  refine ⟨⟨by decide, by decide⟩, ?_, ⟨by decide, by decide, by decide⟩, ?_⟩
  · intro ts c h
    exact cmd_ok_parseElemsAux ts none trivial c h
  · intro ts c h
    exact cmd_ok_parseElemsAux5 ts none trivial c h

theorem claim_C3_witness :
    (Element.cmd ⟨"ls", ["-l"]⟩ ∈ parseElems ["ls", "-l", "&&", "pwd"]) ∧
    (isOperator (Cmd.mk "ls" ["-l"]).binary = false ∧
      ∀ a ∈ (Cmd.mk "ls" ["-l"]).args, isOperator a = false) ∧
    (Element5.cmd ⟨"echo", ["hi"]⟩ ∈ parseElems5 ["echo", "hi", "|", "wc"]) ∧
    (isOperator5 (Cmd.mk "echo" ["hi"]).binary = false ∧
      ∀ a ∈ (Cmd.mk "echo" ["hi"]).args, isOperator5 a = false) :=
  ⟨by decide, claim_C3.2.1 ["ls", "-l", "&&", "pwd"] ⟨"ls", ["-l"]⟩ (by decide),
   by decide, claim_C3.2.2.2 ["echo", "hi", "|", "wc"] ⟨"echo", ["hi"]⟩ (by decide)⟩

/-- Claim C4 (spec-modelled pipeline executor): every stage of a pipeline
is spawned before any stage is waited on, each stage's stdout feeds the
next stage's stdin (the pipeline's output is the left fold of the stage
transforms), the carried outcome is the last stage's exit status, and the
concrete pipeline `echo hello | wc -c` writes `6\n`. -/
theorem claim_C4 :
    (∀ (env : PipeEnv) (cmds : List Cmd) (input : String),
      (runPipeline env cmds input).1 = cmds.map PEvent.spawn ++ cmds.map PEvent.wait) ∧
    (∀ (env : PipeEnv) (cmds : List Cmd) (input : String),
      (runPipeline env cmds input).2.1 = cmds.foldl (fun s c => env.transform c s) input) ∧
    (∀ (env : PipeEnv) (cmds : List Cmd) (input : String) (c : Cmd),
      cmds.getLast? = some c → (runPipeline env cmds input).2.2 = some (env.status c)) ∧
    (runPipeline pipeEnvDemo [⟨"echo", ["hello"]⟩, ⟨"wc", ["-c"]⟩] "").2.1 = "6\n" := by
  refine ⟨?_, ?_, ?_, by decide⟩
  · intro env cmds input
    simp [runPipeline, spawnPhase_spec]
  · intro env cmds input
    simp [runPipeline, spawnPhase_spec]
  · intro env cmds input c h
    simp [runPipeline, h]

theorem claim_C4_witness :
    ([Cmd.mk "echo" ["hello"], Cmd.mk "wc" ["-c"]].getLast? = some (Cmd.mk "wc" ["-c"])) ∧
    (runPipeline pipeEnvDemo [Cmd.mk "echo" ["hello"], Cmd.mk "wc" ["-c"]] "").2.2 =
      some (pipeEnvDemo.status (Cmd.mk "wc" ["-c"])) :=
  ⟨by decide,
   claim_C4.2.2.1 pipeEnvDemo [Cmd.mk "echo" ["hello"], Cmd.mk "wc" ["-c"]] ""
     (Cmd.mk "wc" ["-c"]) (by decide)⟩

/-- Claim C5, amended: the claimed `cd` behavior holds in full for the
src/main.rs implementation — zero or more-than-one arguments report a
usage error with the directory unchanged, and an un-enterable single
argument reports the error with the directory unchanged. In the block4
iteration, however, `cd` with zero arguments silently does nothing (the
`?` on `args.get(0)` returns early with no report) and arguments past the
first are ignored; a failing chdir there still reports the error, leaves
the directory unchanged, and the function returns (the shell continues). -/
theorem claim_C5 :
    (∀ (cwd : String) (env : MEnv) (args : List String), args.length ≠ 1 →
      mainCd args cwd env = (cwd, some "Expected exactly one argument")) ∧
    (∀ (cwd : String) (env : MEnv) (p : String),
      env.enterable (pathJoin cwd p) = false →
      mainCd [p] cwd env = (cwd, some ("cd: cannot enter " ++ pathJoin cwd p))) ∧
    (∀ (env : B4Env) (hist : String),
      b4CmdRun env hist ⟨"cd", []⟩ = B4Out.ret ⟨"", "", none⟩ none) ∧
    (∀ (env : B4Env) (hist d e : String) (rest : List String),
      env.chdirErr d = some e →
      b4CmdRun env hist ⟨"cd", d :: rest⟩ =
        B4Out.ret ⟨"", "Error: " ++ e ++ "\n", none⟩ none) := by
  refine ⟨?_, ?_, fun env hist => rfl, ?_⟩
  · intro cwd env args h
    rcases args with _ | ⟨a, _ | ⟨b, rest⟩⟩
    · rfl
    · simp at h
    · rfl
  · intro cwd env p h
    simp [mainCd, h]
  · intro env hist d e rest h
    simp [b4CmdRun, h, b4Tail]

theorem claim_C5_witness :
    (List.length ["a", "b"] ≠ 1) ∧
    mainCd ["a", "b"] "/d" menvAll = ("/d", some "Expected exactly one argument") ∧
    (b4EnvExt.chdirErr "nope" = some "chdir failed") ∧
    b4CmdRun b4EnvExt "" ⟨"cd", ["nope"]⟩ =
      B4Out.ret ⟨"", "Error: " ++ "chdir failed" ++ "\n", none⟩ none :=
  ⟨by decide, claim_C5.1 "/d" menvAll ["a", "b"] (by decide), rfl,
   claim_C5.2.2.2 b4EnvExt "" "nope" "chdir failed" [] rfl⟩

/-- Claim C5, counterexample to the claim as stated: in block4, invoking
the `cd` builtin with two arguments (on an oracle where every chdir
succeeds) reports no usage error and does change the working directory to
the first argument. -/
theorem claim_C5_counterexample :
    b4CmdRun b4EnvOk "" ⟨"cd", ["a", "b"]⟩ = B4Out.ret ⟨"", "", some "a"⟩ none ∧
    (B4Effect.mk "" "" (some "a")).chdirTo ≠ none ∧
    (B4Effect.mk "" "" (some "a")).printedErr = "" := by
  decide

/-- Claim C6, amended: in block4 the `exit` builtin terminates the whole
process immediately with the given integer status — default `0` when the
argument is absent or unparsable — and neither the chain's remaining
elements nor the line's remaining chains are processed; the src/main.rs
iteration's `exit`, however, always terminates with status `0`, ignoring
any argument. -/
theorem claim_C6 :
    (∀ (env : B4Env) (hist : String) (rest : List Element) (prev : Option Output)
      (args : List String),
      b4RunElems env hist (Element.cmd ⟨"exit", args⟩ :: rest) prev =
        B4ChainOut.exit (exitStatusOf args)) ∧
    exitStatusOf ["1"] = 1 ∧
    exitStatusOf [] = 0 ∧
    exitStatusOf ["abc"] = 0 ∧
    (∀ (env : B4Env) (hist : String) (chains : List Chain),
      b4RunChains env hist (⟨[Element.cmd ⟨"exit", ["1"]⟩]⟩ :: chains) =
        B4ChainOut.exit 1) :=
  ⟨fun _ _ _ _ _ => rfl, by decide, by decide, by decide, fun _ _ _ => rfl⟩

/-- Claim C6, counterexample to the claim as stated: in src/main.rs,
`exit 1` terminates with status `0`, not `1` — the argument is ignored. -/
theorem claim_C6_counterexample :
    mainRun (mcommandFromString "exit 1") "/d" menvAll = MOut.exit 0 ∧
    mainRun (mcommandFromString "exit 1") "/d" menvAll ≠ MOut.exit 1 := by
  decide

/-- Claim C7: block4's main loop appends exactly one record (the trimmed
line plus a newline) to the history log per input line, before chain
splitting and regardless of what parsing and execution produce; the log
path is `.history` unless the `HISTORY_PATH` configuration value overrides
it; and the `history` builtin returns the full current log contents as its
captured output (which `Cmd::run` prints). -/
theorem claim_C7 :
    (∀ (env : B4Env) (line hist : String),
      (b4MainStep env line hist).1 = hist ++ String.mk (trimChars line.toList) ++ "\n") ∧
    historyPath none = ".history" ∧
    (∀ p : String, historyPath (some p) = p) ∧
    (∀ (env : B4Env) (hist : String), env.historyReadErr = none →
      b4CmdRun env hist ⟨"history", []⟩ = B4Out.ret ⟨hist, "", none⟩ none) := by
  refine ⟨fun _ _ _ => rfl, rfl, fun _ => rfl, ?_⟩
  intro env hist h
  simp [b4CmdRun, h, b4Tail]

theorem claim_C7_witness :
    b4EnvOk.historyReadErr = none ∧
    b4CmdRun b4EnvOk "echo 1\necho 2\n" ⟨"history", []⟩ =
      B4Out.ret ⟨"echo 1\necho 2\n", "", none⟩ none :=
  ⟨rfl, claim_C7.2.2.2 b4EnvOk "echo 1\necho 2\n" rfl⟩

/-- Claim C8: a `Chain` is never constructed with an empty element list —
`Parser::parse` returns `None` on zero elements, whitespace-only segments
tokenize to nothing and so yield no chain, and `chains_from_line` silently
drops such segments (e.g. those produced by `;;`) via `filter_map`. -/
theorem claim_C8 :
    (∀ (ts : List String) (c : Chain), parse ts = some c → c.elements ≠ []) ∧
    (∀ (line : String) (c : Chain), c ∈ chainsFromLine line → c.elements ≠ []) ∧
    (∀ seg : List Char, (∀ ch ∈ seg, ch.isWhitespace = true) →
      parse (wordsAux seg []) = none) ∧
    chainsFromLine "ls;;pwd" =
      [⟨[Element.cmd ⟨"ls", []⟩]⟩, ⟨[Element.cmd ⟨"pwd", []⟩]⟩] := by
  refine ⟨?_, ?_, ?_, by decide⟩
  · intro ts c h
    obtain ⟨hc, hne⟩ := parse_eq_some h
    subst hc
    simpa using hne
  · intro line c h
    unfold chainsFromLine at h
    obtain ⟨seg, _, hp⟩ := List.mem_filterMap.mp h
    obtain ⟨hc, hne⟩ := parse_eq_some hp
    subst hc
    simpa using hne
  · intro seg h
    rw [wordsAux_of_whitespace seg h]
    rfl

theorem claim_C8_witness :
    parse ["ls"] = some ⟨[Element.cmd ⟨"ls", []⟩]⟩ ∧
    (Chain.mk [Element.cmd ⟨"ls", []⟩]).elements ≠ [] ∧
    (∀ ch ∈ [' ', '\t'], ch.isWhitespace = true) ∧
    parse (wordsAux [' ', '\t'] []) = none :=
  ⟨by decide, claim_C8.1 ["ls"] ⟨[Element.cmd ⟨"ls", []⟩]⟩ (by decide),
   by decide, claim_C8.2.2.1 [' ', '\t'] (by decide)⟩

/-- Claim C9: parsing consumes every token exactly once, in order —
flattening a parsed chain's elements (operator literal for `And`/`Or`,
binary then args for a command) reproduces the original token sequence. -/
theorem claim_C9 :
    ∀ (ts : List String) (c : Chain), parse ts = some c →
      flattenElems c.elements = ts := by
  intro ts c h
  obtain ⟨hc, _⟩ := parse_eq_some h
  subst hc
  exact flatten_parseElems ts

theorem claim_C9_witness :
    parse ["ls", "-l", "&&", "pwd"] =
      some ⟨[Element.cmd ⟨"ls", ["-l"]⟩, Element.and, Element.cmd ⟨"pwd", []⟩]⟩ ∧
    flattenElems (Chain.mk [Element.cmd ⟨"ls", ["-l"]⟩, Element.and,
      Element.cmd ⟨"pwd", []⟩]).elements = ["ls", "-l", "&&", "pwd"] :=
  ⟨by decide,
   claim_C9 ["ls", "-l", "&&", "pwd"]
     ⟨[Element.cmd ⟨"ls", ["-l"]⟩, Element.and, Element.cmd ⟨"pwd", []⟩]⟩ (by decide)⟩

/-- Claim C10: block4's `Cmd::run` either terminates the process (`exit`)
or returns `None` — for builtins and externals, succeeding or failing —
after itself printing a present captured output; so a Command element
never sets the carried outcome in that iteration. -/
theorem claim_C10 :
    (∀ (env : B4Env) (hist : String) (c : Cmd) (eff : B4Effect) (v : Option Output),
      b4CmdRun env hist c = B4Out.ret eff v → v = none) ∧
    (∀ (env : B4Env) (hist : String) (c : Cmd) (o : Output),
      c.binary ≠ "cd" → c.binary ≠ "exit" → c.binary ≠ "history" →
      env.external c = Except.ok o →
      b4CmdRun env hist c = B4Out.ret ⟨o.stdout, o.stderr, none⟩ none) := by
  constructor
  · intro env hist c eff v h
    unfold b4CmdRun b4Tail at h
    repeat' split at h
    all_goals cases h <;> rfl
  · intro env hist c o h1 h2 h3 h4
    unfold b4CmdRun
    rw [if_neg h1, if_neg h2, if_neg h3, h4]
    rfl

theorem claim_C10_witness :
    b4CmdRun b4EnvExt "" ⟨"ls", []⟩ = B4Out.ret ⟨"out\n", "", none⟩ none ∧
    ((Cmd.mk "ls" []).binary ≠ "cd" ∧ (Cmd.mk "ls" []).binary ≠ "exit" ∧
      (Cmd.mk "ls" []).binary ≠ "history") ∧
    (none : Option Output) = none :=
  ⟨claim_C10.2 b4EnvExt "" ⟨"ls", []⟩ ⟨0, "out\n", ""⟩
     (by decide) (by decide) (by decide) rfl,
   ⟨by decide, by decide, by decide⟩,
   claim_C10.1 b4EnvExt "" ⟨"ls", []⟩ ⟨"out\n", "", none⟩ none (by decide)⟩
